import Mathlib

/-!
Verification development for the cube-protocol pricing and accounting engine.

The repository ships only the brownie test-suite and deployment scripts; the
Solidity contracts (CubePool / CubeToken and the earlier LPool / LToken
variant) are not present.  The definitions below are therefore modelled from
the specification (spec.md), with the behaviour pinned down by the tests in
src/tests wherever those are more precise than the prose:

* `poolBalance` is a derived quantity, `heldCollateral - accruedProtocolFees`
  (test_deposit_withdraw.py::test_invariants, and the donation check in
  test_pool.py::test_governance_methods);
* the stored per-token `lastPrice` is the raw oracle ratio
  `rawPower(spot) * 1e18 / initialReferencePrice`, rebased to 1e18 at token
  creation (test_pool.py asserts `params(...)[LAST_PRICE] == prices /
  initialPrices * 1e18` and that a price update is a no-op exactly when the
  oracle did not move);
* the quoted (normalized) price scales that ratio by
  `poolBalance / totalEquity`, and is `1e18` when total equity is zero.

All arithmetic is Nat with explicit floor division, matching the EVM's
truncating uint256 arithmetic; fallible operations return `Except Err`.
-/

namespace Cube

/-- Fixed-point unit: 1e18 (one whole token / 1.0 in fixed point). -/
def UNIT : Nat := 10 ^ 18

/-- Side of a leveraged token: LONG tracks price^3, SHORT tracks price^-3. -/
inductive Side where
  | long : Side
  | short : Side
deriving DecidableEq

/-- Per-token state, as described in spec.md §3 (LeveragedToken). -/
structure Token where
  key : String
  side : Side
  initialSpotPrice : Nat
  /-- `initialReferencePrice`: the oracle price raised to ±3, captured at creation. -/
  initialPrice : Nat
  /-- `lastNormalizedPrice`: stored price ratio, 1e18 at creation. -/
  lastPrice : Nat
  lastUpdated : Nat
  depositPaused : Bool
  withdrawPaused : Bool
  priceUpdatePaused : Bool
  feeBps : Nat
  maxPoolShareBps : Nat
  totalSupply : Nat
  name : String
  symbol : String
deriving DecidableEq

/-- Failure taxonomy (spec.md §7). -/
inductive Err where
  | notGovernance
  | notGovernanceOrGuardian
  | alreadyAdded
  | priceUnavailable
  | priceOverflow
  | feeOutOfRange
  | notAdded
  | paused
  | zeroAddress
  | zeroAmount
  | maxPoolBalanceExceeded
  | maxPoolShareExceeded
  | insufficientSupply
  | balanceUnderflow
  | minTotalEquityExceeded
  | maxSlippageExceeded
deriving DecidableEq

/-- Pool singleton state (spec.md §3).  Addresses are modelled as Nat, with
`0` the null address. -/
structure Pool where
  heldCollateral : Nat
  accruedProtocolFees : Nat
  protocolFeeBps : Nat
  maxPoolBalance : Nat
  governance : Nat
  guardian : Nat
  tokens : List Token
deriving DecidableEq

/-- Modelled from the spec: `poolBalance` is the held collateral attributable
to token holders, i.e. total held collateral minus un-collected protocol fees
(test_invariants: `pool.poolBalance() == pool.balance() -
pool.accruedProtocolFees()`). -/
def poolBalance (s : Pool) : Nat := s.heldCollateral - s.accruedProtocolFees

/-- Total equity in raw 1e36 fixed-point scale: Σ supply·lastPrice. -/
def totalEquityRaw (s : Pool) : Nat :=
  (s.tokens.map (fun t => t.totalSupply * t.lastPrice)).sum

/-- Total equity in collateral (wei) scale: Σ supply·lastPrice / 1e18. -/
def totalEquity (s : Pool) : Nat := totalEquityRaw s / UNIT

/-- price^3 (the cube power; this models the 3x product variant, N = 3). -/
def cubePower (spot : Nat) : Nat := spot * spot * spot

/-- Modelled from the spec: `rawPower(symbol, side)` is `p^3` for LONG and
`1/p^3` for SHORT, in fixed point (§4.1); the SHORT inverse carries a 1e54
scale so it stays positive for realistic oracle prices. -/
def rawPower (spot : Nat) : Side → Nat
  | Side.long => cubePower spot
  | Side.short => UNIT * UNIT * UNIT / cubePower spot

/-- Overflow-safety ceiling on the initial reference price (spec.md §4.3). -/
def PRICE_CEILING : Nat := 10 ^ 60

/-- Modelled from the spec: the minimum total equity, in collateral (wei)
units, that must remain after any withdrawal (spec.md §4.2: a
"minimum post-withdrawal total-equity floor ... (`MinTotalEquityExceeded`)",
defined by this product variant).  The tests bracket the constant without
pinning its exact value: withdrawing the whole supply reverts with
"Min total equity exceeded" even when it would leave total equity at
exactly zero or at dust level (test_pool.py lines 428-431), while a
withdrawal leaving ≈0.001 ether of equity succeeds
(test_deposit_withdraw.py lines 63-73); we take 1000 wei, inside that
bracket. -/
def MIN_TOTAL_EQUITY : Nat := 1000

/-- The stored price ratio for a token at oracle price `spot`:
`rawPower(spot) * 1e18 / initialReferencePrice`, which is 1e18 at creation. -/
def ratioOf (t : Token) (spot : Nat) : Nat :=
  rawPower spot t.side * UNIT / t.initialPrice

/-- The instantaneous normalized price of token `i` read off the stored state:
1e18 when total equity is zero, otherwise
`lastPrice * poolBalance * 1e18 / totalEquityRaw` (spec.md §4.1 `normalize`,
with the stored ratio in place of the oracle read). -/
def priceOn (s : Pool) (i : Nat) : Nat :=
  match s.tokens[i]? with
  | none => 0
  | some t =>
      if totalEquityRaw s = 0 then UNIT
      else t.lastPrice * poolBalance s * UNIT / totalEquityRaw s

/-- Store a freshly recomputed price and its timestamp into token slot `i`. -/
def writePrice (s : Pool) (i : Nat) (t : Token) (r now : Nat) : Pool :=
  { s with tokens := s.tokens.set i ({ t with lastPrice := r, lastUpdated := now }) }

/-- `updatePrice` (spec.md §4.1): recompute and store the price ratio and the
update timestamp, but only if `priceUpdatePaused` is false (a no-op, not an
error, when paused), and skipping the write when the recomputed value equals
the stored one. -/
def updatePrice (s : Pool) (i spot now : Nat) : Except Err Pool :=
  match s.tokens[i]? with
  | none => Except.error Err.notAdded
  | some t =>
      if t.priceUpdatePaused then Except.ok s
      else if spot = 0 then Except.error Err.priceUnavailable
      else if ratioOf t spot = t.lastPrice then Except.ok s
      else Except.ok (writePrice s i t (ratioOf t spot) now)

/-- `deposit` (spec.md §4.2): collateral in, cube tokens out.  Performs the
implicit price update first, takes the fee, mints `net * 1e18 / price`
rounded down, and credits the protocol share of the fee to
`accruedProtocolFees`. -/
def deposit (s : Pool) (i collateralIn recipient spot now : Nat) :
    Except Err (Pool × Nat) :=
  match s.tokens[i]? with
  | none => Except.error Err.notAdded
  | some t =>
      if t.depositPaused then Except.error Err.paused
      else if recipient = 0 then Except.error Err.zeroAddress
      else if collateralIn = 0 then Except.error Err.zeroAmount
      else
        match updatePrice s i spot now with
        | Except.error e => Except.error e
        | Except.ok s₁ =>
            match s₁.tokens[i]? with
            | none => Except.error Err.notAdded
            | some t₁ =>
                let p := priceOn s₁ i
                if p = 0 then Except.error Err.priceUnavailable
                else
                  let fee := collateralIn * t₁.feeBps / 10000
                  let protocolShare := fee * s₁.protocolFeeBps / 10000
                  let q := (collateralIn - fee) * UNIT / p
                  if s₁.maxPoolBalance ≠ 0 ∧
                      s₁.maxPoolBalance < s₁.heldCollateral + collateralIn then
                    Except.error Err.maxPoolBalanceExceeded
                  else if t₁.maxPoolShareBps ≠ 0 ∧
                      t₁.maxPoolShareBps * (totalEquityRaw s₁ + q * t₁.lastPrice)
                        < (t₁.totalSupply + q) * t₁.lastPrice * 10000 then
                    Except.error Err.maxPoolShareExceeded
                  else
                    Except.ok ({ s₁ with
                      tokens := s₁.tokens.set i
                        ({ t₁ with totalSupply := t₁.totalSupply + q }),
                      heldCollateral := s₁.heldCollateral + collateralIn,
                      accruedProtocolFees :=
                        s₁.accruedProtocolFees + protocolShare }, q)

/-- `withdraw` (spec.md §4.2): cube tokens in, collateral out.  Implicit price
update, `gross = quantity * price / 1e18` rounded down, fee deducted, the
protocol share accrued; the decrement of `poolBalance` reverts on arithmetic
underflow (§7), as does burning more than the outstanding supply, and a
withdrawal that would leave the pool-wide total equity below the
`MIN_TOTAL_EQUITY` floor reverts with `MinTotalEquityExceeded`
(spec.md §4.2; pinned by test_pool.py lines 428-431, where draining the
last token's supply reverts with "Min total equity exceeded"). -/
def withdraw (s : Pool) (i quantityIn recipient spot now : Nat) :
    Except Err (Pool × Nat) :=
  match s.tokens[i]? with
  | none => Except.error Err.notAdded
  | some t =>
      if t.withdrawPaused then Except.error Err.paused
      else if recipient = 0 then Except.error Err.zeroAddress
      else if quantityIn = 0 then Except.error Err.zeroAmount
      else
        match updatePrice s i spot now with
        | Except.error e => Except.error e
        | Except.ok s₁ =>
            match s₁.tokens[i]? with
            | none => Except.error Err.notAdded
            | some t₁ =>
                let p := priceOn s₁ i
                let gross := quantityIn * p / UNIT
                let fee := gross * t₁.feeBps / 10000
                let protocolShare := fee * s₁.protocolFeeBps / 10000
                let net := gross - fee
                if t₁.totalSupply < quantityIn then
                  Except.error Err.insufficientSupply
                else if totalEquityRaw s₁ <
                    quantityIn * t₁.lastPrice + MIN_TOTAL_EQUITY * UNIT then
                  Except.error Err.minTotalEquityExceeded
                else if poolBalance s₁ < net + protocolShare then
                  Except.error Err.balanceUnderflow
                else
                  Except.ok ({ s₁ with
                    tokens := s₁.tokens.set i
                      ({ t₁ with totalSupply := t₁.totalSupply - quantityIn }),
                    heldCollateral := s₁.heldCollateral - net,
                    accruedProtocolFees :=
                      s₁.accruedProtocolFees + protocolShare }, net)

/-- `addCubeToken` (spec.md §4.3): governance-only token creation. -/
def addCubeToken (s : Pool) (caller : Nat) (key : String) (sd : Side)
    (feeBps maxPoolShareBps spot now : Nat) : Except Err (Pool × Nat) :=
  if caller ≠ s.governance then Except.error Err.notGovernance
  else if s.tokens.any (fun t => t.key = key ∧ t.side = sd) then
    Except.error Err.alreadyAdded
  else if spot = 0 then Except.error Err.priceUnavailable
  else if 10000 ≤ feeBps then Except.error Err.feeOutOfRange
  else
    let ref := rawPower spot sd
    if ref = 0 ∨ PRICE_CEILING < ref then Except.error Err.priceOverflow
    else
      Except.ok ({ s with tokens := s.tokens ++
        [{ key := key
           side := sd
           initialSpotPrice := spot
           initialPrice := ref
           lastPrice := UNIT
           lastUpdated := now
           depositPaused := false
           withdrawPaused := false
           priceUpdatePaused := false
           feeBps := feeBps
           maxPoolShareBps := maxPoolShareBps
           totalSupply := 0
           name := (match sd with
                    | Side.long => "3X Long " ++ key
                    | Side.short => "3X Short " ++ key)
           symbol := (match sd with
                      | Side.long => "cube" ++ key
                      | Side.short => "inv" ++ key) }] }, s.tokens.length)

/-- `collectProtocolFees` (spec.md §4.2): governance-only; transfers the
accrued fees out and resets the accumulator. -/
def collectProtocolFees (s : Pool) (caller : Nat) : Except Err (Pool × Nat) :=
  if caller ≠ s.governance then Except.error Err.notGovernance
  else
    Except.ok ({ s with
      heldCollateral := s.heldCollateral - s.accruedProtocolFees,
      accruedProtocolFees := 0 }, s.accruedProtocolFees)

/-- An unsolicited transfer of collateral straight to the pool contract
(outside any deposit): it only raises the held balance. -/
def donate (s : Pool) (amount : Nat) : Pool :=
  { s with heldCollateral := s.heldCollateral + amount }

/-- `setProtocolFee`: governance-only, at most 100%. -/
def setProtocolFee (s : Pool) (caller bps : Nat) : Except Err Pool :=
  if caller ≠ s.governance then Except.error Err.notGovernance
  else if 10000 < bps then Except.error Err.feeOutOfRange
  else Except.ok { s with protocolFeeBps := bps }

/-- `setDepositWithdrawFee`: governance-only, strictly below 100%. -/
def setDepositWithdrawFee (s : Pool) (caller i bps : Nat) : Except Err Pool :=
  if caller ≠ s.governance then Except.error Err.notGovernance
  else if 10000 ≤ bps then Except.error Err.feeOutOfRange
  else
    match s.tokens[i]? with
    | none => Except.error Err.notAdded
    | some t => Except.ok { s with tokens := s.tokens.set i ({ t with feeBps := bps }) }

/-- `setPaused`: governance or guardian; flips the three per-token flags. -/
def setPaused (s : Pool) (caller i : Nat) (d w u : Bool) : Except Err Pool :=
  if caller ≠ s.governance ∧ caller ≠ s.guardian then
    Except.error Err.notGovernanceOrGuardian
  else
    match s.tokens[i]? with
    | none => Except.error Err.notAdded
    | some t =>
        Except.ok { s with
          tokens := s.tokens.set i
            ({ t with depositPaused := d, withdrawPaused := w,
                      priceUpdatePaused := u }) }

/-- `quote`: the pure price quotation — the price `deposit`/`withdraw` will
use, i.e. the normalized price after the (in-memory) implicit update. -/
def quote (s : Pool) (i spot now : Nat) : Except Err Nat :=
  (updatePrice s i spot now).map (fun s₁ => priceOn s₁ i)

/-- Modelled from the spec: `quoteDeposit` — the pure, side-effect-free
projection of the deposit math (§4.2): take the fee, then
`net * 1e18 / price` rounded down. -/
def quoteDeposit (s : Pool) (i collateralIn spot now : Nat) : Except Err Nat :=
  match s.tokens[i]? with
  | none => Except.error Err.notAdded
  | some t =>
      match quote s i spot now with
      | Except.error e => Except.error e
      | Except.ok p =>
          if p = 0 then Except.error Err.priceUnavailable
          else
            let fee := collateralIn * t.feeBps / 10000
            Except.ok ((collateralIn - fee) * UNIT / p)

/-- Modelled from the spec: `quoteWithdraw` — the pure projection of the
withdraw math (§4.2): `gross = quantity * price / 1e18` rounded down, minus
the fee. -/
def quoteWithdraw (s : Pool) (i quantityIn spot now : Nat) : Except Err Nat :=
  match s.tokens[i]? with
  | none => Except.error Err.notAdded
  | some t =>
      match quote s i spot now with
      | Except.error e => Except.error e
      | Except.ok p =>
          let gross := quantityIn * p / UNIT
          Except.ok (gross - gross * t.feeBps / 10000)

/-- Modelled from the spec: the §4.1 `normalize` formula written exactly as
the spec words it — `rawPower(token) * poolBalance / initialReferencePrice /
totalEquity` in fixed-point units (1e18 scale factors inserted so the result
is 1e18-scaled), with the current oracle price, and exactly 1e18 when total
equity is zero. -/
def specNormalizedPrice (s : Pool) (i spot : Nat) : Nat :=
  match s.tokens[i]? with
  | none => 0
  | some t =>
      if totalEquityRaw s = 0 then UNIT
      else rawPower spot t.side * UNIT / t.initialPrice
            * poolBalance s * UNIT / totalEquityRaw s

/-- The fresh pool right after deployment. -/
def initPool (gv gd : Nat) : Pool :=
  { heldCollateral := 0
    accruedProtocolFees := 0
    protocolFeeBps := 0
    maxPoolBalance := 0
    governance := gv
    guardian := gd
    tokens := [] }

/-- One external call to the engine, with all of its arguments. -/
inductive Op where
  | add (caller : Nat) (key : String) (sd : Side) (feeBps maxShare spot now : Nat)
  | dep (i collateralIn recipient spot now : Nat)
  | wd (i quantityIn recipient spot now : Nat)
  | upd (i spot now : Nat)
  | collect (caller : Nat)
  | donation (amount : Nat)
  | setProtFee (caller bps : Nat)
  | setTokenFee (caller i bps : Nat)
  | setPause (caller i : Nat) (d w u : Bool)
deriving DecidableEq

/-- Execute one call; a failed call reverts, leaving the state untouched
(all-or-nothing, spec.md §7). -/
def applyOp (op : Op) (s : Pool) : Pool :=
  match op with
  | Op.add caller key sd feeBps maxShare spot now =>
      match addCubeToken s caller key sd feeBps maxShare spot now with
      | Except.ok r => r.1
      | Except.error _ => s
  | Op.dep i c recipient spot now =>
      match deposit s i c recipient spot now with
      | Except.ok r => r.1
      | Except.error _ => s
  | Op.wd i q recipient spot now =>
      match withdraw s i q recipient spot now with
      | Except.ok r => r.1
      | Except.error _ => s
  | Op.upd i spot now =>
      match updatePrice s i spot now with
      | Except.ok s₁ => s₁
      | Except.error _ => s
  | Op.collect caller =>
      match collectProtocolFees s caller with
      | Except.ok r => r.1
      | Except.error _ => s
  | Op.donation amount => donate s amount
  | Op.setProtFee caller bps =>
      match setProtocolFee s caller bps with
      | Except.ok s₁ => s₁
      | Except.error _ => s
  | Op.setTokenFee caller i bps =>
      match setDepositWithdrawFee s caller i bps with
      | Except.ok s₁ => s₁
      | Except.error _ => s
  | Op.setPause caller i d w u =>
      match setPaused s caller i d w u with
      | Except.ok s₁ => s₁
      | Except.error _ => s

/-- Run a sequence of external calls from a starting state. -/
def runOps (ops : List Op) (s : Pool) : Pool :=
  ops.foldl (fun st op => applyOp op st) s

/-! ### The buy/sell product variant (LPool)

Modelled from the spec: the alternate variant (§4.2 Buy/Sell) trades a
desired token quantity against collateral with a slippage bound.  The cost
taken from the buyer rounds up — as the repository's own test notes, "buying
0 does nothing. it costs 1 because of rounding up" (test_lt.py), so the
round-up is the unconditional floor-plus-one the tests observe. -/

structure LPool where
  heldCollateral : Nat
  feesAccrued : Nat
  tradingFeeBps : Nat
  tokens : List Token
deriving DecidableEq

def lpoolBalance (s : LPool) : Nat := s.heldCollateral - s.feesAccrued

def lpoolEquityRaw (s : LPool) : Nat :=
  (s.tokens.map (fun t => t.totalSupply * t.lastPrice)).sum

def lpoolPriceOn (s : LPool) (i : Nat) : Nat :=
  match s.tokens[i]? with
  | none => 0
  | some t =>
      if lpoolEquityRaw s = 0 then UNIT
      else t.lastPrice * lpoolBalance s * UNIT / lpoolEquityRaw s

def lpoolWritePrice (s : LPool) (i : Nat) (t : Token) (r now : Nat) : LPool :=
  { s with tokens := s.tokens.set i ({ t with lastPrice := r, lastUpdated := now }) }

def lpoolUpdatePrice (s : LPool) (i spot now : Nat) : Except Err LPool :=
  match s.tokens[i]? with
  | none => Except.error Err.notAdded
  | some t =>
      if t.priceUpdatePaused then Except.ok s
      else if spot = 0 then Except.error Err.priceUnavailable
      else if ratioOf t spot = t.lastPrice then Except.ok s
      else Except.ok (lpoolWritePrice s i t (ratioOf t spot) now)

/-- `buy` (spec.md §4.2 Buy/Sell): purchase `quantity` tokens for at most
`maxCost` collateral.  The base cost rounds up (floor + 1); the trading fee
is charged on top and accrues to `feesAccrued`. -/
def buy (s : LPool) (i quantity maxCost recipient spot now : Nat) :
    Except Err (LPool × Nat) :=
  match s.tokens[i]? with
  | none => Except.error Err.notAdded
  | some t =>
      if t.depositPaused then Except.error Err.paused
      else if recipient = 0 then Except.error Err.zeroAddress
      else
        match lpoolUpdatePrice s i spot now with
        | Except.error e => Except.error e
        | Except.ok s₁ =>
            match s₁.tokens[i]? with
            | none => Except.error Err.notAdded
            | some t₁ =>
                let p := lpoolPriceOn s₁ i
                let base := quantity * p / UNIT + 1
                let fee := base * s₁.tradingFeeBps / 10000
                let cost := base + fee
                if maxCost < cost then Except.error Err.maxSlippageExceeded
                else
                  Except.ok ({ s₁ with
                    heldCollateral := s₁.heldCollateral + cost,
                    feesAccrued := s₁.feesAccrued + fee,
                    tokens := s₁.tokens.set i
                      ({ t₁ with totalSupply := t₁.totalSupply + quantity }) },
                    cost)

/-- `sell` (spec.md §4.2 Buy/Sell): sell `quantity` tokens for at least
`minOut` collateral.  Proceeds round down; the fee is deducted from the
proceeds and accrues to `feesAccrued`. -/
def sell (s : LPool) (i quantity minOut recipient spot now : Nat) :
    Except Err (LPool × Nat) :=
  match s.tokens[i]? with
  | none => Except.error Err.notAdded
  | some t =>
      if t.withdrawPaused then Except.error Err.paused
      else if recipient = 0 then Except.error Err.zeroAddress
      else
        match lpoolUpdatePrice s i spot now with
        | Except.error e => Except.error e
        | Except.ok s₁ =>
            match s₁.tokens[i]? with
            | none => Except.error Err.notAdded
            | some t₁ =>
                let p := lpoolPriceOn s₁ i
                let base := quantity * p / UNIT
                let fee := base * s₁.tradingFeeBps / 10000
                let out := base - fee
                if out < minOut then Except.error Err.maxSlippageExceeded
                else if t₁.totalSupply < quantity then
                  Except.error Err.insufficientSupply
                else if lpoolBalance s₁ < base then
                  Except.error Err.balanceUnderflow
                else
                  Except.ok ({ s₁ with
                    heldCollateral := s₁.heldCollateral - out,
                    feesAccrued := s₁.feesAccrued + fee,
                    tokens := s₁.tokens.set i
                      ({ t₁ with totalSupply := t₁.totalSupply - quantity }) },
                    out)

/-! ### Concrete fixture states -/

/-- A freshly created LONG token for "BTC" at oracle spot 10^6, whose cube is
exactly 1e18, so its reference price is one fixed-point unit. -/
def baseToken : Token :=
  { key := "BTC"
    side := Side.long
    initialSpotPrice := 1000000
    initialPrice := UNIT
    lastPrice := UNIT
    lastUpdated := 0
    depositPaused := false
    withdrawPaused := false
    priceUpdatePaused := false
    feeBps := 0
    maxPoolShareBps := 0
    totalSupply := 0
    name := "3X Long BTC"
    symbol := "cube" ++ "BTC" }

/-- A pool holding one token with zero supply that has received a 100 wei
donation: total equity is zero while the pool balance is positive. -/
def poolDonated : Pool :=
  { heldCollateral := 100
    accruedProtocolFees := 0
    protocolFeeBps := 0
    maxPoolBalance := 0
    governance := 1
    guardian := 0
    tokens := [baseToken] }

/-- A pool whose single token has price updates paused and a stored price
that is stale relative to the oracle. -/
def poolPausedStale : Pool :=
  { heldCollateral := 2
    accruedProtocolFees := 0
    protocolFeeBps := 0
    maxPoolBalance := 0
    governance := 1
    guardian := 0
    tokens := [{ baseToken with priceUpdatePaused := true, totalSupply := 1 }] }

/-- A pool whose single unpaused token has an up-to-date stored price. -/
def poolUnit : Pool :=
  { heldCollateral := 2
    accruedProtocolFees := 0
    protocolFeeBps := 0
    maxPoolBalance := 0
    governance := 1
    guardian := 0
    tokens := [{ baseToken with totalSupply := 1 }] }

/-- A pool comfortably above the equity floor: 2000 quanta of supply at
stored price 1e18 (2000 wei of equity) against 4000 wei of collateral, so
the token's quoted price is 2e18. -/
def poolBig : Pool :=
  { heldCollateral := 4000
    accruedProtocolFees := 0
    protocolFeeBps := 0
    maxPoolBalance := 0
    governance := 1
    guardian := 0
    tokens := [{ baseToken with totalSupply := 2000 }] }

/-- `poolBig` right after a 100 wei deposit minted 50 quanta. -/
def poolBigAfterDep : Pool :=
  { heldCollateral := 4100
    accruedProtocolFees := 0
    protocolFeeBps := 0
    maxPoolBalance := 0
    governance := 1
    guardian := 0
    tokens := [{ baseToken with totalSupply := 2050 }] }

/-- The token of `poolUnit` after a price update at oracle spot 2·10^6. -/
def poolUnitTokenUpdated : Token :=
  { baseToken with totalSupply := 1, lastPrice := 8 * UNIT, lastUpdated := 5 }

/-- `poolUnit` after a price update at oracle spot 2·10^6. -/
def poolUnitUpdated : Pool :=
  { poolUnit with tokens := [poolUnitTokenUpdated] }

/-- A pool whose single token has deposits and withdrawals paused. -/
def poolAllPaused : Pool :=
  { heldCollateral := 2
    accruedProtocolFees := 0
    protocolFeeBps := 0
    maxPoolBalance := 0
    governance := 1
    guardian := 0
    tokens := [{ baseToken with depositPaused := true, withdrawPaused := true,
                                totalSupply := 1 }] }

/-- The SHORT "ETH" token as `addCubeToken` creates it at oracle spot 10^6
and time 5, with a 1% fee. -/
def ethShortToken : Token :=
  { key := "ETH"
    side := Side.short
    initialSpotPrice := 1000000
    initialPrice := rawPower 1000000 Side.short
    lastPrice := UNIT
    lastUpdated := 5
    depositPaused := false
    withdrawPaused := false
    priceUpdatePaused := false
    feeBps := 100
    maxPoolShareBps := 0
    totalSupply := 0
    name := "3X Short ETH"
    symbol := "invETH" }

/-- `poolUnit` with the SHORT "ETH" token appended. -/
def poolUnitEth : Pool :=
  { poolUnit with tokens := poolUnit.tokens ++ [ethShortToken] }

/-- A pool whose token was created at the (astronomically large) oracle spot
price 10^19, so that a 1-unit oracle move vanishes under the 1e18-scale
floor division of the price ratio. -/
def poolHugeSpot : Pool :=
  { heldCollateral := 0
    accruedProtocolFees := 0
    protocolFeeBps := 0
    maxPoolBalance := 0
    governance := 1
    guardian := 0
    tokens := [{ baseToken with initialSpotPrice := 10 ^ 19,
                                initialPrice := 10 ^ 57 }] }

/-- A buy/sell-variant pool with one token in circulation and a 1% trading
fee. -/
def lpoolOne : LPool :=
  { heldCollateral := UNIT
    feesAccrued := 0
    tradingFeeBps := 100
    tokens := [{ baseToken with totalSupply := UNIT,
                                name := "BTC Cube Token" }] }

/-- The bookkeeping invariant maintained by every operation: accrued fees
never exceed the held collateral, and every fee parameter is at most 100%. -/
def Inv (s : Pool) : Prop :=
  s.accruedProtocolFees ≤ s.heldCollateral ∧
  s.protocolFeeBps ≤ 10000 ∧
  ∀ t ∈ s.tokens, t.feeBps ≤ 10000

/-! ### Helper lemmas -/

/-- Writing back the element already present leaves a list unchanged. -/
theorem list_set_same {α : Type} {l : List α} {i : Nat} {a : α}
    (h : l[i]? = some a) : l.set i a = l := by
  apply List.ext_getElem?
  intro n
  rw [List.getElem?_set]
  split
  · rename_i hin
    subst hin
    rw [if_pos (List.getElem?_eq_some_iff.mp h).1, h]
  · rfl

/-- Anatomy of a successful price update: either nothing changed, or exactly
the price and timestamp of token `i` were rewritten. -/
theorem updatePrice_ok_cases {s s₁ : Pool} {i spot now : Nat}
    (h : updatePrice s i spot now = Except.ok s₁) :
    ∃ t, s.tokens[i]? = some t ∧
      (s₁ = s ∨
        (t.priceUpdatePaused = false ∧ spot ≠ 0 ∧ ratioOf t spot ≠ t.lastPrice ∧
          s₁ = writePrice s i t (ratioOf t spot) now)) := by
  unfold updatePrice at h
  split at h
  · exact absurd h (by simp)
  · rename_i t ht
    refine ⟨t, ht, ?_⟩
    by_cases hp : t.priceUpdatePaused
    · simp only [hp, if_true] at h
      exact Or.inl (Except.ok.inj h).symm
    · simp only [hp, if_false] at h
      by_cases hs : spot = 0
      · simp [hs] at h
      · simp only [hs, if_false] at h
        by_cases hr : ratioOf t spot = t.lastPrice
        · simp only [hr, if_true] at h
          exact Or.inl (Except.ok.inj h).symm
        · simp only [hr, if_false] at h
          exact Or.inr ⟨Bool.not_eq_true _ ▸ hp, hs, hr, (Except.ok.inj h).symm⟩

/-- A successful price update leaves every balance-type field unchanged. -/
theorem updatePrice_ok_balances {s s₁ : Pool} {i spot now : Nat}
    (h : updatePrice s i spot now = Except.ok s₁) :
    s₁.heldCollateral = s.heldCollateral ∧
    s₁.accruedProtocolFees = s.accruedProtocolFees ∧
    s₁.protocolFeeBps = s.protocolFeeBps ∧
    s₁.maxPoolBalance = s.maxPoolBalance := by
  obtain ⟨t, _, hc | ⟨_, _, _, hc⟩⟩ := updatePrice_ok_cases h <;> subst hc <;>
    exact ⟨rfl, rfl, rfl, rfl⟩

/-- A successful price update leaves every token's fee, pause flags, supply,
identity and reference price unchanged (only `lastPrice`/`lastUpdated` may
move). -/
theorem updatePrice_ok_token {s s₁ : Pool} {i spot now : Nat} {t t₁ : Token}
    (h : updatePrice s i spot now = Except.ok s₁)
    (ht : s.tokens[i]? = some t) (ht₁ : s₁.tokens[i]? = some t₁) :
    t₁.feeBps = t.feeBps ∧ t₁.totalSupply = t.totalSupply ∧
    t₁.depositPaused = t.depositPaused ∧ t₁.withdrawPaused = t.withdrawPaused ∧
    t₁.priceUpdatePaused = t.priceUpdatePaused ∧
    t₁.initialPrice = t.initialPrice ∧ t₁.side = t.side ∧
    t₁.maxPoolShareBps = t.maxPoolShareBps := by
  obtain ⟨t', ht', hc | ⟨_, _, _, hc⟩⟩ := updatePrice_ok_cases h
  · subst hc
    rw [ht] at ht₁
    cases ht₁
    exact ⟨rfl, rfl, rfl, rfl, rfl, rfl, rfl, rfl⟩
  · rw [ht] at ht'
    cases ht'
    subst hc
    have hlt : i < s.tokens.length := (List.getElem?_eq_some_iff.mp ht).1
    simp only [writePrice, List.getElem?_set_self (by simpa using hlt)] at ht₁
    cases ht₁
    exact ⟨rfl, rfl, rfl, rfl, rfl, rfl, rfl, rfl⟩

/-- After a successful price update the token slot is still occupied. -/
theorem updatePrice_ok_isSome {s s₁ : Pool} {i spot now : Nat} {t : Token}
    (h : updatePrice s i spot now = Except.ok s₁)
    (ht : s.tokens[i]? = some t) : ∃ t₁, s₁.tokens[i]? = some t₁ := by
  obtain ⟨t', ht', hc | ⟨_, _, _, hc⟩⟩ := updatePrice_ok_cases h
  · subst hc; exact ⟨t, ht⟩
  · subst hc
    have hlt : i < s.tokens.length := (List.getElem?_eq_some_iff.mp ht).1
    exact ⟨_, by
      simp only [writePrice]
      exact List.getElem?_set_self (by simpa using hlt)⟩

/-- A second price update at the same oracle price is a no-op. -/
theorem updatePrice_idem {s s₁ : Pool} {i spot now₁ : Nat}
    (h₁ : updatePrice s i spot now₁ = Except.ok s₁) (now₂ : Nat) :
    updatePrice s₁ i spot now₂ = Except.ok s₁ := by
  unfold updatePrice at h₁
  split at h₁
  · exact absurd h₁ (by simp)
  · rename_i t ht
    by_cases hp : t.priceUpdatePaused
    · simp only [hp, if_true] at h₁
      injection h₁ with h₁
      subst h₁
      unfold updatePrice
      rw [ht]
      simp [hp]
    · simp only [hp, if_false] at h₁
      by_cases hs : spot = 0
      · simp [hs] at h₁
      · simp only [hs, if_false] at h₁
        by_cases hr : ratioOf t spot = t.lastPrice
        · simp only [hr, if_true] at h₁
          injection h₁ with h₁
          subst h₁
          unfold updatePrice
          rw [ht]
          simp [hp, hs, hr]
        · simp only [hr, if_false] at h₁
          injection h₁ with h₁
          subst h₁
          have hlt : i < s.tokens.length := (List.getElem?_eq_some_iff.mp ht).1
          have hset : (writePrice s i t (ratioOf t spot) now₁).tokens[i]?
              = some ({ t with lastPrice := ratioOf t spot, lastUpdated := now₁ }) := by
            simp only [writePrice]
            exact List.getElem?_set_self (by simpa using hlt)
          unfold updatePrice
          rw [hset]
          simp [hp, hs, ratioOf]

/-- After a successful price update, token `i`'s stored price agrees with the
ratio recomputed at the same oracle price — unless its updates are paused. -/
theorem updatePrice_ok_ratio {s s₁ : Pool} {i spot now : Nat} {t₁ : Token}
    (h : updatePrice s i spot now = Except.ok s₁)
    (ht₁ : s₁.tokens[i]? = some t₁) :
    t₁.priceUpdatePaused = true ∨ (spot ≠ 0 ∧ ratioOf t₁ spot = t₁.lastPrice) := by
  unfold updatePrice at h
  split at h
  · exact absurd h (by simp)
  · rename_i t ht
    by_cases hp : t.priceUpdatePaused
    · simp only [hp, if_true] at h
      injection h with h
      subst h
      rw [ht] at ht₁
      cases ht₁
      exact Or.inl hp
    · simp only [hp, if_false] at h
      by_cases hs : spot = 0
      · simp [hs] at h
      · simp only [hs, if_false] at h
        by_cases hr : ratioOf t spot = t.lastPrice
        · simp only [hr, if_true] at h
          injection h with h
          subst h
          rw [ht] at ht₁
          cases ht₁
          exact Or.inr ⟨hs, hr⟩
        · simp only [hr, if_false] at h
          injection h with h
          subst h
          have hlt : i < s.tokens.length := (List.getElem?_eq_some_iff.mp ht).1
          simp only [writePrice, List.getElem?_set_self (by simpa using hlt)] at ht₁
          cases ht₁
          exact Or.inr ⟨hs, by simp [ratioOf]⟩

/-- A price update is an exact no-op whenever the token is paused or the
recomputed ratio already equals the stored price. -/
theorem updatePrice_noop_of_ratio {s : Pool} {i spot : Nat} {t : Token}
    (ht : s.tokens[i]? = some t)
    (hd : t.priceUpdatePaused = true ∨ (spot ≠ 0 ∧ ratioOf t spot = t.lastPrice))
    (now : Nat) : updatePrice s i spot now = Except.ok s := by
  unfold updatePrice
  rw [ht]
  rcases hd with hp | ⟨hs, hr⟩
  · simp [hp]
  · by_cases hp : t.priceUpdatePaused
    · simp [hp]
    · simp [hp, hs, hr]

/-- Summing a mapped list across `List.set`: the new sum plus the replaced
entry's value equals the old sum plus the new entry's value. -/
theorem map_sum_set {α : Type} (f : α → Nat) (l : List α) :
    ∀ (i : Nat) (a b : α), l[i]? = some b →
      ((l.set i a).map f).sum + f b = (l.map f).sum + f a := by
  induction l with
  | nil =>
      intro i a b h
      simp at h
  | cons x xs ih =>
      intro i a b h
      cases i with
      | zero =>
          simp only [List.getElem?_cons_zero] at h
          injection h with h
          subst h
          simp only [List.set_cons_zero, List.map_cons, List.sum_cons]
          omega
      | succ n =>
          simp only [List.getElem?_cons_succ] at h
          have hx := ih n a b h
          simp only [List.set_cons_succ, List.map_cons, List.sum_cons]
          omega

/-- A successful deposit returns exactly what `quoteDeposit` quotes from the
same state. -/
theorem deposit_ok_quote {s s' : Pool} {i amount recipient spot now q : Nat}
    (h : deposit s i amount recipient spot now = Except.ok (s', q)) :
    quoteDeposit s i amount spot now = Except.ok q := by
  unfold deposit at h
  split at h
  · exact absurd h (by simp)
  · rename_i t ht
    by_cases h1 : t.depositPaused
    · simp [h1] at h
    · simp only [h1, Bool.false_eq_true, if_false] at h
      by_cases h2 : recipient = 0
      · simp [h2] at h
      · simp only [h2, if_false] at h
        by_cases h3 : amount = 0
        · simp [h3] at h
        · simp only [h3, if_false] at h
          cases hupd : updatePrice s i spot now with
          | error e =>
              rw [hupd] at h
              exact absurd h (by simp)
          | ok s₁ =>
              rw [hupd] at h
              dsimp only at h
              cases ht₁ : s₁.tokens[i]? with
              | none =>
                  rw [ht₁] at h
                  exact absurd h (by simp)
              | some t₁ =>
                  rw [ht₁] at h
                  dsimp only at h
                  by_cases hp0 : priceOn s₁ i = 0
                  · simp [hp0] at h
                  · simp only [hp0, if_false] at h
                    by_cases h4 : s₁.maxPoolBalance ≠ 0 ∧
                        s₁.maxPoolBalance < s₁.heldCollateral + amount
                    · simp [h4] at h
                    · simp only [h4, if_false] at h
                      by_cases h5 : t₁.maxPoolShareBps ≠ 0 ∧
                          t₁.maxPoolShareBps *
                              (totalEquityRaw s₁ + (amount - amount * t₁.feeBps / 10000)
                                * UNIT / priceOn s₁ i * t₁.lastPrice)
                            < (t₁.totalSupply + (amount - amount * t₁.feeBps / 10000)
                                * UNIT / priceOn s₁ i) * t₁.lastPrice * 10000
                      · simp [h5] at h
                      · simp only [h5, if_false] at h
                        injection h with h
                        injection h with hstate hq
                        have hfee : t₁.feeBps = t.feeBps :=
                          (updatePrice_ok_token hupd ht ht₁).1
                        unfold quoteDeposit quote
                        rw [ht, hupd]
                        dsimp only [Except.map]
                        rw [if_neg hp0, ← hq, hfee]

/-- A successful withdrawal pays out exactly what `quoteWithdraw` quotes from
the same state. -/
theorem withdraw_ok_quote {s s' : Pool} {i quantityIn recipient spot now out : Nat}
    (h : withdraw s i quantityIn recipient spot now = Except.ok (s', out)) :
    quoteWithdraw s i quantityIn spot now = Except.ok out := by
  unfold withdraw at h
  split at h
  · exact absurd h (by simp)
  · rename_i t ht
    by_cases h1 : t.withdrawPaused
    · simp [h1] at h
    · simp only [h1, Bool.false_eq_true, if_false] at h
      by_cases h2 : recipient = 0
      · simp [h2] at h
      · simp only [h2, if_false] at h
        by_cases h3 : quantityIn = 0
        · simp [h3] at h
        · simp only [h3, if_false] at h
          cases hupd : updatePrice s i spot now with
          | error e =>
              rw [hupd] at h
              exact absurd h (by simp)
          | ok s₁ =>
              rw [hupd] at h
              dsimp only at h
              cases ht₁ : s₁.tokens[i]? with
              | none =>
                  rw [ht₁] at h
                  exact absurd h (by simp)
              | some t₁ =>
                  rw [ht₁] at h
                  dsimp only at h
                  by_cases h4 : t₁.totalSupply < quantityIn
                  · simp [h4] at h
                  · simp only [h4, if_false] at h
                    by_cases h4e : totalEquityRaw s₁ <
                        quantityIn * t₁.lastPrice + MIN_TOTAL_EQUITY * UNIT
                    · simp [h4e] at h
                    · simp only [h4e, if_false] at h
                      by_cases h5 : poolBalance s₁ <
                          (quantityIn * priceOn s₁ i / UNIT
                            - quantityIn * priceOn s₁ i / UNIT * t₁.feeBps / 10000)
                          + quantityIn * priceOn s₁ i / UNIT * t₁.feeBps / 10000
                            * s₁.protocolFeeBps / 10000
                      · simp [h5] at h
                      · simp only [h5, if_false] at h
                        injection h with h
                        injection h with hstate hout
                        have hfee : t₁.feeBps = t.feeBps :=
                          (updatePrice_ok_token hupd ht ht₁).1
                        unfold quoteWithdraw quote
                        rw [ht, hupd]
                        dsimp only [Except.map]
                        rw [← hout, hfee]

/-- Anatomy of a successful deposit: the implicit update succeeded, the
minted quantity is `net * 1e18 / price` with the fee taken off first, and
the new state adds the collateral, the protocol fee share, and the minted
supply. -/
theorem deposit_ok_anatomy {s s' : Pool} {i c recipient spot now q : Nat}
    (h : deposit s i c recipient spot now = Except.ok (s', q)) :
    ∃ s₁ t₁, updatePrice s i spot now = Except.ok s₁ ∧
      s₁.tokens[i]? = some t₁ ∧
      priceOn s₁ i ≠ 0 ∧
      q = (c - c * t₁.feeBps / 10000) * UNIT / priceOn s₁ i ∧
      s' = { s₁ with
        tokens := s₁.tokens.set i
          ({ t₁ with totalSupply := t₁.totalSupply + q }),
        heldCollateral := s₁.heldCollateral + c,
        accruedProtocolFees := s₁.accruedProtocolFees
          + c * t₁.feeBps / 10000 * s₁.protocolFeeBps / 10000 } := by
  unfold deposit at h
  split at h
  · exact absurd h (by simp)
  · rename_i t ht
    by_cases h1 : t.depositPaused
    · simp [h1] at h
    · simp only [h1, Bool.false_eq_true, if_false] at h
      by_cases h2 : recipient = 0
      · simp [h2] at h
      · simp only [h2, if_false] at h
        by_cases h3 : c = 0
        · simp [h3] at h
        · simp only [h3, if_false] at h
          cases hupd : updatePrice s i spot now with
          | error e =>
              rw [hupd] at h
              exact absurd h (by simp)
          | ok s₁ =>
              rw [hupd] at h
              dsimp only at h
              cases ht₁ : s₁.tokens[i]? with
              | none =>
                  rw [ht₁] at h
                  exact absurd h (by simp)
              | some t₁ =>
                  rw [ht₁] at h
                  dsimp only at h
                  by_cases hp0 : priceOn s₁ i = 0
                  · simp [hp0] at h
                  · simp only [hp0, if_false] at h
                    by_cases h4 : s₁.maxPoolBalance ≠ 0 ∧
                        s₁.maxPoolBalance < s₁.heldCollateral + c
                    · simp [h4] at h
                    · simp only [h4, if_false] at h
                      by_cases h5 : t₁.maxPoolShareBps ≠ 0 ∧
                          t₁.maxPoolShareBps *
                              (totalEquityRaw s₁ + (c - c * t₁.feeBps / 10000)
                                * UNIT / priceOn s₁ i * t₁.lastPrice)
                            < (t₁.totalSupply + (c - c * t₁.feeBps / 10000)
                                * UNIT / priceOn s₁ i) * t₁.lastPrice * 10000
                      · simp [h5] at h
                      · simp only [h5, if_false] at h
                        injection h with h
                        injection h with hst hq
                        subst hst
                        exact ⟨s₁, t₁, rfl, ht₁, hp0, hq.symm, by rw [← hq]⟩

/-- Anatomy of a successful withdrawal: the implicit update succeeded, the
payout is `gross - fee` with `gross = quantity * price / 1e18`, the supply,
min-total-equity and pool-balance underflow guards passed, and the new state
burns the supply, pays the net amount out and accrues the protocol fee
share. -/
theorem withdraw_ok_anatomy {s s' : Pool} {i qIn recipient spot now out : Nat}
    (h : withdraw s i qIn recipient spot now = Except.ok (s', out)) :
    ∃ s₁ t₁, updatePrice s i spot now = Except.ok s₁ ∧
      s₁.tokens[i]? = some t₁ ∧
      qIn ≤ t₁.totalSupply ∧
      qIn * t₁.lastPrice + MIN_TOTAL_EQUITY * UNIT ≤ totalEquityRaw s₁ ∧
      (qIn * priceOn s₁ i / UNIT
          - qIn * priceOn s₁ i / UNIT * t₁.feeBps / 10000)
        + qIn * priceOn s₁ i / UNIT * t₁.feeBps / 10000
          * s₁.protocolFeeBps / 10000 ≤ poolBalance s₁ ∧
      out = qIn * priceOn s₁ i / UNIT
          - qIn * priceOn s₁ i / UNIT * t₁.feeBps / 10000 ∧
      s' = { s₁ with
        tokens := s₁.tokens.set i
          ({ t₁ with totalSupply := t₁.totalSupply - qIn }),
        heldCollateral := s₁.heldCollateral - out,
        accruedProtocolFees := s₁.accruedProtocolFees
          + qIn * priceOn s₁ i / UNIT * t₁.feeBps / 10000
            * s₁.protocolFeeBps / 10000 } := by
  unfold withdraw at h
  split at h
  · exact absurd h (by simp)
  · rename_i t ht
    by_cases h1 : t.withdrawPaused
    · simp [h1] at h
    · simp only [h1, Bool.false_eq_true, if_false] at h
      by_cases h2 : recipient = 0
      · simp [h2] at h
      · simp only [h2, if_false] at h
        by_cases h3 : qIn = 0
        · simp [h3] at h
        · simp only [h3, if_false] at h
          cases hupd : updatePrice s i spot now with
          | error e =>
              rw [hupd] at h
              exact absurd h (by simp)
          | ok s₁ =>
              rw [hupd] at h
              dsimp only at h
              cases ht₁ : s₁.tokens[i]? with
              | none =>
                  rw [ht₁] at h
                  exact absurd h (by simp)
              | some t₁ =>
                  rw [ht₁] at h
                  dsimp only at h
                  by_cases h4 : t₁.totalSupply < qIn
                  · simp [h4] at h
                  · simp only [h4, if_false] at h
                    by_cases h4e : totalEquityRaw s₁ <
                        qIn * t₁.lastPrice + MIN_TOTAL_EQUITY * UNIT
                    · simp [h4e] at h
                    · simp only [h4e, if_false] at h
                      by_cases h5 : poolBalance s₁ <
                          (qIn * priceOn s₁ i / UNIT
                            - qIn * priceOn s₁ i / UNIT * t₁.feeBps / 10000)
                          + qIn * priceOn s₁ i / UNIT * t₁.feeBps / 10000
                            * s₁.protocolFeeBps / 10000
                      · simp [h5] at h
                      · simp only [h5, if_false] at h
                        injection h with h
                        injection h with hst hout
                        subst hst
                        exact ⟨s₁, t₁, rfl, ht₁, Nat.le_of_not_lt h4,
                          Nat.le_of_not_lt h4e,
                          Nat.le_of_not_lt h5, hout.symm, by rw [← hout]⟩

/-- Setting a slot to a token within the fee bound keeps the fee bound. -/
theorem inv_tokens_set {l : List Token} {i : Nat} {t' : Token}
    (hall : ∀ t ∈ l, t.feeBps ≤ 10000) (hb : t'.feeBps ≤ 10000) :
    ∀ t ∈ l.set i t', t.feeBps ≤ 10000 := by
  intro t htm
  rcases List.mem_or_eq_of_mem_set htm with hm | he
  · exact hall t hm
  · subst he
    exact hb

/-- A price update preserves the bookkeeping invariant. -/
theorem inv_updatePrice {s s₁ : Pool} {i spot now : Nat}
    (hinv : Inv s) (h : updatePrice s i spot now = Except.ok s₁) : Inv s₁ := by
  obtain ⟨t, ht, hc | ⟨-, -, -, hc⟩⟩ := updatePrice_ok_cases h
  · subst hc
    exact hinv
  · subst hc
    obtain ⟨h1, h2, h3⟩ := hinv
    refine ⟨h1, h2, ?_⟩
    simp only [writePrice]
    exact inv_tokens_set h3 (h3 t (List.getElem?_mem ht))

/-- A deposit preserves the bookkeeping invariant: the protocol share of the
fee never exceeds the collateral paid in. -/
theorem inv_deposit {s s' : Pool} {i c recipient spot now q : Nat}
    (hinv : Inv s) (h : deposit s i c recipient spot now = Except.ok (s', q)) :
    Inv s' := by
  obtain ⟨s₁, t₁, hupd, ht₁, -, -, hst⟩ := deposit_ok_anatomy h
  obtain ⟨h1, h2, h3⟩ := inv_updatePrice hinv hupd
  have hft : t₁.feeBps ≤ 10000 := h3 t₁ (List.getElem?_mem ht₁)
  subst hst
  have hfee : c * t₁.feeBps / 10000 ≤ c := by
    calc c * t₁.feeBps / 10000
        ≤ c * 10000 / 10000 :=
          Nat.div_le_div_right (Nat.mul_le_mul_left c hft)
      _ = c := Nat.mul_div_cancel c (by decide)
  have hps : c * t₁.feeBps / 10000 * s₁.protocolFeeBps / 10000
      ≤ c * t₁.feeBps / 10000 := by
    calc c * t₁.feeBps / 10000 * s₁.protocolFeeBps / 10000
        ≤ c * t₁.feeBps / 10000 * 10000 / 10000 :=
          Nat.div_le_div_right (Nat.mul_le_mul_left _ h2)
      _ = c * t₁.feeBps / 10000 := Nat.mul_div_cancel _ (by decide)
  refine ⟨?_, h2, ?_⟩
  · dsimp only
    omega
  · dsimp only
    exact inv_tokens_set h3 hft

/-- A withdrawal preserves the bookkeeping invariant thanks to the
pool-balance underflow guard. -/
theorem inv_withdraw {s s' : Pool} {i qIn recipient spot now out : Nat}
    (hinv : Inv s) (h : withdraw s i qIn recipient spot now = Except.ok (s', out)) :
    Inv s' := by
  obtain ⟨s₁, t₁, hupd, ht₁, -, -, hguard, hout, hst⟩ := withdraw_ok_anatomy h
  obtain ⟨h1, h2, h3⟩ := inv_updatePrice hinv hupd
  have hft : t₁.feeBps ≤ 10000 := h3 t₁ (List.getElem?_mem ht₁)
  subst hst
  subst hout
  unfold poolBalance at hguard
  refine ⟨?_, h2, ?_⟩
  · dsimp only
    omega
  · dsimp only
    exact inv_tokens_set h3 hft

/-- Adding a token preserves the bookkeeping invariant (its fee is bounded
at creation). -/
theorem inv_add {s s' : Pool} {caller : Nat} {key : String} {sd : Side}
    {feeBps maxShare spot now idx : Nat}
    (hinv : Inv s)
    (h : addCubeToken s caller key sd feeBps maxShare spot now
      = Except.ok (s', idx)) : Inv s' := by
  unfold addCubeToken at h
  by_cases h1 : caller ≠ s.governance
  · simp [h1] at h
  · rw [if_neg h1] at h
    by_cases h2 : s.tokens.any (fun t => t.key = key ∧ t.side = sd)
    · rw [if_pos h2] at h
      exact absurd h (by simp)
    · rw [if_neg h2] at h
      by_cases h3 : spot = 0
      · simp [h3] at h
      · rw [if_neg h3] at h
        by_cases h4 : 10000 ≤ feeBps
        · simp [h4] at h
        · rw [if_neg h4] at h
          dsimp only at h
          by_cases h5 : rawPower spot sd = 0 ∨ PRICE_CEILING < rawPower spot sd
          · simp [h5] at h
          · rw [if_neg h5] at h
            injection h with h
            injection h with hst hidx
            subst hst
            obtain ⟨g1, g2, g3⟩ := hinv
            refine ⟨g1, g2, ?_⟩
            intro t htm
            rcases List.mem_append.mp htm with hm | hm
            · exact g3 t hm
            · rw [List.mem_singleton.mp hm]
              show feeBps ≤ 10000
              omega

/-- Collecting fees preserves the bookkeeping invariant. -/
theorem inv_collect {s s' : Pool} {caller ret : Nat}
    (hinv : Inv s) (h : collectProtocolFees s caller = Except.ok (s', ret)) :
    Inv s' := by
  unfold collectProtocolFees at h
  by_cases h1 : caller ≠ s.governance
  · simp [h1] at h
  · rw [if_neg h1] at h
    injection h with h
    injection h with hst hret
    subst hst
    exact ⟨Nat.zero_le _, hinv.2.1, hinv.2.2⟩

/-- A donation preserves the bookkeeping invariant. -/
theorem inv_donate {s : Pool} (amount : Nat) (hinv : Inv s) :
    Inv (donate s amount) :=
  ⟨Nat.le_trans hinv.1 (Nat.le_add_right _ _), hinv.2.1, hinv.2.2⟩

/-- Setting the protocol fee preserves the bookkeeping invariant. -/
theorem inv_setProtFee {s s₁ : Pool} {caller bps : Nat}
    (hinv : Inv s) (h : setProtocolFee s caller bps = Except.ok s₁) : Inv s₁ := by
  unfold setProtocolFee at h
  by_cases h1 : caller ≠ s.governance
  · simp [h1] at h
  · rw [if_neg h1] at h
    by_cases h2 : 10000 < bps
    · simp [h2] at h
    · rw [if_neg h2] at h
      injection h with h
      subst h
      exact ⟨hinv.1, by show bps ≤ 10000; omega, hinv.2.2⟩

/-- Setting a token's fee preserves the bookkeeping invariant. -/
theorem inv_setTokenFee {s s₁ : Pool} {caller i bps : Nat}
    (hinv : Inv s) (h : setDepositWithdrawFee s caller i bps = Except.ok s₁) :
    Inv s₁ := by
  unfold setDepositWithdrawFee at h
  by_cases h1 : caller ≠ s.governance
  · simp [h1] at h
  · rw [if_neg h1] at h
    by_cases h2 : 10000 ≤ bps
    · simp [h2] at h
    · rw [if_neg h2] at h
      split at h
      · exact absurd h (by simp)
      · rename_i t ht
        injection h with h
        subst h
        refine ⟨hinv.1, hinv.2.1, ?_⟩
        exact inv_tokens_set hinv.2.2 (by show bps ≤ 10000; omega)

/-- Setting pause flags preserves the bookkeeping invariant. -/
theorem inv_setPause {s s₁ : Pool} {caller i : Nat} {d w u : Bool}
    (hinv : Inv s) (h : setPaused s caller i d w u = Except.ok s₁) : Inv s₁ := by
  unfold setPaused at h
  by_cases h1 : caller ≠ s.governance ∧ caller ≠ s.guardian
  · simp [h1] at h
  · rw [if_neg h1] at h
    split at h
    · exact absurd h (by simp)
    · rename_i t ht
      injection h with h
      subst h
      refine ⟨hinv.1, hinv.2.1, ?_⟩
      exact inv_tokens_set hinv.2.2 (hinv.2.2 t (List.getElem?_mem ht))

/-- Every external call — successful or reverted — preserves the
bookkeeping invariant. -/
theorem inv_applyOp {s : Pool} (op : Op) (hinv : Inv s) : Inv (applyOp op s) := by
  cases op with
  | add caller key sd feeBps maxShare spot now =>
      dsimp only [applyOp]
      cases hx : addCubeToken s caller key sd feeBps maxShare spot now with
      | error e => exact hinv
      | ok r => exact inv_add hinv hx
  | dep i c recipient spot now =>
      dsimp only [applyOp]
      cases hx : deposit s i c recipient spot now with
      | error e => exact hinv
      | ok r => exact inv_deposit hinv hx
  | wd i qIn recipient spot now =>
      dsimp only [applyOp]
      cases hx : withdraw s i qIn recipient spot now with
      | error e => exact hinv
      | ok r => exact inv_withdraw hinv hx
  | upd i spot now =>
      dsimp only [applyOp]
      cases hx : updatePrice s i spot now with
      | error e => exact hinv
      | ok s₁ => exact inv_updatePrice hinv hx
  | collect caller =>
      dsimp only [applyOp]
      cases hx : collectProtocolFees s caller with
      | error e => exact hinv
      | ok r => exact inv_collect hinv hx
  | donation amount => exact inv_donate amount hinv
  | setProtFee caller bps =>
      dsimp only [applyOp]
      cases hx : setProtocolFee s caller bps with
      | error e => exact hinv
      | ok s₁ => exact inv_setProtFee hinv hx
  | setTokenFee caller i bps =>
      dsimp only [applyOp]
      cases hx : setDepositWithdrawFee s caller i bps with
      | error e => exact hinv
      | ok s₁ => exact inv_setTokenFee hinv hx
  | setPause caller i d w u =>
      dsimp only [applyOp]
      cases hx : setPaused s caller i d w u with
      | error e => exact hinv
      | ok s₁ => exact inv_setPause hinv hx

/-- The bookkeeping invariant holds along every call sequence. -/
theorem inv_runOps {s : Pool} (ops : List Op) (hinv : Inv s) :
    Inv (runOps ops s) := by
  induction ops generalizing s with
  | nil => exact hinv
  | cons op ops ih => exact ih (inv_applyOp op hinv)

/-- C1 (amended): after every sequence of operations (token creation,
deposit, withdraw, price update, fee collection, fee/pause configuration,
donations) from the freshly deployed pool, the first conjunct of the
accounting invariant holds exactly: the collateral held by the pool equals
`poolBalance` plus `accruedProtocolFees`.  (The second conjunct — that
`poolBalance` equals the total equity Σ supply·lastNormalizedPrice/1e18 —
is false on the code: a single fee-charging deposit already breaks it; see
the counterexample.) -/
theorem c1_accounting_invariant (ops : List Op) (gv gd : Nat) :
    (runOps ops (initPool gv gd)).heldCollateral
      = poolBalance (runOps ops (initPool gv gd))
        + (runOps ops (initPool gv gd)).accruedProtocolFees := by
  have hinv : Inv (runOps ops (initPool gv gd)) :=
    inv_runOps ops ⟨Nat.le_refl 0, Nat.zero_le _, by intro t htm; cases htm⟩
  have h1 := hinv.1
  unfold poolBalance
  omega

/-- Counterexample for C1 as stated: add a token with a 1% fee, set the
protocol fee share to 20%, deposit 1 ether.  Afterwards `poolBalance` is
0.998e18 but Σ supply·lastNormalizedPrice/1e18 is 0.990e18: the fee kept by
the pool is not (yet) reflected in any token's stored price, so the second
conjunct of the claimed invariant fails. -/
theorem c1_counterexample :
    poolBalance (runOps
      [Op.add 1 "BTC" Side.long 100 0 1000000 0,
        Op.setProtFee 1 2000,
        Op.dep 0 (10 ^ 18) 2 1000000 1] (initPool 1 0)) = 998 * 10 ^ 15 ∧
    totalEquity (runOps
      [Op.add 1 "BTC" Side.long 100 0 1000000 0,
        Op.setProtFee 1 2000,
        Op.dep 0 (10 ^ 18) 2 1000000 1] (initPool 1 0)) = 990 * 10 ^ 15 ∧
    (998 * 10 ^ 15 : Nat) ≠ 990 * 10 ^ 15 := by
  exact ⟨by decide, by decide, by decide⟩

/-- C3: for every state and every positive deposit amount, a deposit
immediately followed by a withdrawal of the exact quantity minted (same
oracle price, arbitrary timestamps) returns collateral ≤ the deposited
amount — amounts taken from the user round up and amounts paid out round
down, so the user never profits from round-trip rounding.  No hypothesis
beyond the success of the two operations is needed: the min-total-equity
floor of `withdraw` rules out the one regime where rounding is not the whole
story (zero pre-deposit equity, where the quoted price is pinned to 1e18
regardless of the pool balance and a depositor could otherwise scoop a prior
donation).  Key estimate: if the payout exceeded `c` then the withdraw-time
price `M` would have to exceed the deposit-time price `P`, yet the floored
price formulas give `M·(T + q·ℓ) ≤ ℓ·PB'·1e18 ≤ ℓ·(PB + c)·1e18` and
`ℓ·PB·1e18 < (P+1)·T ≤ M·T`, forcing `q·M < c·1e18` — contradicting
`(c+1)·1e18 ≤ q·M`. -/
theorem c3_roundtrip_no_profit (s s₁ s₂ : Pool)
    (i c r₁ r₂ spot now₁ now₂ q out : Nat)
    (hdep : deposit s i c r₁ spot now₁ = Except.ok (s₁, q))
    (hwd : withdraw s₁ i q r₂ spot now₂ = Except.ok (s₂, out)) :
    out ≤ c := by
  obtain ⟨sᵤ, t₁, hupd, ht₁, hp0, hq, hst⟩ := deposit_ok_anatomy hdep
  obtain ⟨sᵥ, t₂, hupd₂, ht₂, -, hfloor, -, hout, -⟩ := withdraw_ok_anatomy hwd
  have hlt : i < sᵤ.tokens.length := (List.getElem?_eq_some_iff.mp ht₁).1
  have htok : s₁.tokens
      = sᵤ.tokens.set i ({ t₁ with totalSupply := t₁.totalSupply + q }) := by
    rw [hst]
  have hheld : s₁.heldCollateral = sᵤ.heldCollateral + c := by rw [hst]
  have hacc : s₁.accruedProtocolFees = sᵤ.accruedProtocolFees
      + c * t₁.feeBps / 10000 * sᵤ.protocolFeeBps / 10000 := by rw [hst]
  have ht₂' : s₁.tokens[i]?
      = some ({ t₁ with totalSupply := t₁.totalSupply + q }) := by
    rw [htok]
    exact List.getElem?_set_self (by simpa using hlt)
  have hdisj := updatePrice_ok_ratio hupd ht₁
  have hnoop : updatePrice s₁ i spot now₂ = Except.ok s₁ := by
    refine updatePrice_noop_of_ratio ht₂' ?_ now₂
    rcases hdisj with hp | ⟨hs, hr⟩
    · exact Or.inl hp
    · exact Or.inr ⟨hs, hr⟩
  have hsv : sᵥ = s₁ := by
    rw [hnoop] at hupd₂
    exact (Except.ok.inj hupd₂).symm
  rw [hsv] at ht₂ hfloor hout
  rw [ht₂'] at ht₂
  injection ht₂ with ht2eq
  rw [← ht2eq] at hfloor hout
  dsimp only at hfloor hout
  have hTE : totalEquityRaw s₁ = totalEquityRaw sᵤ + q * t₁.lastPrice := by
    have hsum := map_sum_set (fun t => t.totalSupply * t.lastPrice) sᵤ.tokens i
      ({ t₁ with totalSupply := t₁.totalSupply + q }) t₁ ht₁
    unfold totalEquityRaw
    rw [htok]
    dsimp only at hsum
    rw [Nat.add_mul] at hsum
    omega
  have hTE0 : totalEquityRaw sᵤ ≠ 0 := by
    have hm : 0 < MIN_TOTAL_EQUITY * UNIT := by decide
    rw [hTE] at hfloor
    omega
  have hTE0' : totalEquityRaw s₁ ≠ 0 := by
    rw [hTE]
    omega
  have hP : priceOn sᵤ i
      = t₁.lastPrice * poolBalance sᵤ * UNIT / totalEquityRaw sᵤ := by
    unfold priceOn
    rw [ht₁]
    dsimp only
    rw [if_neg hTE0]
  have hM : priceOn s₁ i
      = t₁.lastPrice * poolBalance s₁ * UNIT / totalEquityRaw s₁ := by
    unfold priceOn
    rw [ht₂']
    dsimp only
    rw [if_neg hTE0']
  have hPB : poolBalance s₁ ≤ poolBalance sᵤ + c := by
    unfold poolBalance
    rw [hheld, hacc]
    omega
  have hq2 : q * priceOn sᵤ i ≤ c * UNIT := by
    rw [hq]
    calc (c - c * t₁.feeBps / 10000) * UNIT / priceOn sᵤ i * priceOn sᵤ i
        ≤ (c - c * t₁.feeBps / 10000) * UNIT := Nat.div_mul_le_self _ _
      _ ≤ c * UNIT := Nat.mul_le_mul_right _ (Nat.sub_le _ _)
  rw [hout]
  refine le_trans (Nat.sub_le _ _) ?_
  by_contra hgt
  have hge : (c + 1) * UNIT ≤ q * priceOn s₁ i :=
    (Nat.le_div_iff_mul_le (by decide : 0 < UNIT)).mp
      (Nat.succ_le_of_lt (Nat.lt_of_not_le hgt))
  have hU : 0 < UNIT := by decide
  have hMP : priceOn sᵤ i < priceOn s₁ i := by
    by_contra hle
    have h2 : q * priceOn s₁ i ≤ q * priceOn sᵤ i :=
      Nat.mul_le_mul_left _ (Nat.le_of_not_lt hle)
    have h3 : (c + 1) * UNIT ≤ c * UNIT := le_trans hge (le_trans h2 hq2)
    rw [Nat.add_mul, Nat.one_mul] at h3
    omega
  have hTpos : 0 < totalEquityRaw sᵤ := Nat.pos_of_ne_zero hTE0
  have hPup : t₁.lastPrice * poolBalance sᵤ * UNIT
      < (priceOn sᵤ i + 1) * totalEquityRaw sᵤ := by
    refine (Nat.div_lt_iff_lt_mul hTpos).mp ?_
    rw [hP]
    exact Nat.lt_succ_self _
  have hMdown : priceOn s₁ i * totalEquityRaw s₁
      ≤ t₁.lastPrice * poolBalance s₁ * UNIT := by
    rw [hM]
    exact Nat.div_mul_le_self _ _
  have hMT : (priceOn sᵤ i + 1) * totalEquityRaw sᵤ
      ≤ priceOn s₁ i * totalEquityRaw sᵤ :=
    Nat.mul_le_mul_right _ (Nat.succ_le_of_lt hMP)
  have hbig : priceOn s₁ i * totalEquityRaw sᵤ
        + priceOn s₁ i * (q * t₁.lastPrice)
      ≤ t₁.lastPrice * poolBalance sᵤ * UNIT + t₁.lastPrice * c * UNIT := by
    have h5 : priceOn s₁ i * totalEquityRaw s₁
        = priceOn s₁ i * totalEquityRaw sᵤ
          + priceOn s₁ i * (q * t₁.lastPrice) := by
      rw [hTE, Nat.mul_add]
    have h6 : t₁.lastPrice * poolBalance s₁ * UNIT
        ≤ t₁.lastPrice * poolBalance sᵤ * UNIT + t₁.lastPrice * c * UNIT := by
      calc t₁.lastPrice * poolBalance s₁ * UNIT
          ≤ t₁.lastPrice * (poolBalance sᵤ + c) * UNIT :=
            Nat.mul_le_mul_right _ (Nat.mul_le_mul_left _ hPB)
        _ = t₁.lastPrice * poolBalance sᵤ * UNIT + t₁.lastPrice * c * UNIT := by
            rw [Nat.mul_add, Nat.add_mul]
    rw [← h5]
    exact le_trans hMdown h6
  have h7 : t₁.lastPrice * poolBalance sᵤ * UNIT
      < priceOn s₁ i * totalEquityRaw sᵤ := lt_of_lt_of_le hPup hMT
  have hless : priceOn s₁ i * (q * t₁.lastPrice) < t₁.lastPrice * c * UNIT := by
    omega
  have hfinal : q * priceOn s₁ i < c * UNIT := by
    have e1 : priceOn s₁ i * (q * t₁.lastPrice)
        = q * priceOn s₁ i * t₁.lastPrice := by ring
    have e2 : t₁.lastPrice * c * UNIT = c * UNIT * t₁.lastPrice := by ring
    rw [e1, e2] at hless
    exact lt_of_mul_lt_mul_right hless (Nat.zero_le _)
  have h8 : (c + 1) * UNIT < c * UNIT := lt_of_le_of_lt hge hfinal
  rw [Nat.add_mul, Nat.one_mul] at h8
  omega

/-- Witness for C3: depositing 100 wei into `poolBig` (price 2e18) mints 50
quanta, and withdrawing those 50 returns exactly 100 ≤ 100, the pool ending
back at `poolBig` with 2000 wei of equity — comfortably above the floor. -/
theorem c3_roundtrip_no_profit_witness :
    deposit poolBig 0 100 2 1000000 5 = Except.ok (poolBigAfterDep, 50) ∧
    withdraw poolBigAfterDep 0 50 2 1000000 6 = Except.ok (poolBig, 100) ∧
    (100 : Nat) ≤ 100 := by
  refine ⟨by rfl, by rfl, ?_⟩
  exact c3_roundtrip_no_profit poolBig poolBigAfterDep poolBig
    0 100 2 2 1000000 5 6 50 100 (by rfl) (by rfl)

/-- C5: for every token with `priceUpdatePaused` set, calling the
price-update operation succeeds without error and leaves the whole pool state
(in particular `lastNormalizedPrice` and `lastUpdateTimestamp`) unchanged,
regardless of the oracle price. -/
theorem c5_paused_update_is_noop (s : Pool) (i spot now : Nat) (t : Token)
    (ht : s.tokens[i]? = some t) (hp : t.priceUpdatePaused = true) :
    updatePrice s i spot now = Except.ok s := by
  unfold updatePrice
  rw [ht]
  simp [hp]

/-- Witness for C5 at a concrete paused token and a moved oracle price. -/
theorem c5_paused_update_is_noop_witness :
    updatePrice poolPausedStale 0 2000000 9 = Except.ok poolPausedStale :=
  c5_paused_update_is_noop poolPausedStale 0 2000000 9
    ({ baseToken with priceUpdatePaused := true, totalSupply := 1 }) (by rfl) (by rfl)

/-- C6 (amended): after any successful price update, a second call at the
same oracle price is an exact no-op (state, price and timestamp unchanged);
and if the oracle price changed enough that the recomputed ratio differs from
the stored price, the second call stores the new price and bumps
`lastUpdateTimestamp` to the current time.  (As stated the claim is false:
an oracle change so small that the recomputed ratio floors to the stored
value does not bump the timestamp — see the counterexample.) -/
theorem c6_second_update (s s₁ : Pool) (i spot now₁ now₂ : Nat) (t₁ : Token)
    (h₁ : updatePrice s i spot now₁ = Except.ok s₁)
    (ht₁ : s₁.tokens[i]? = some t₁) :
    updatePrice s₁ i spot now₂ = Except.ok s₁ ∧
    (∀ spot₂, spot₂ ≠ 0 → t₁.priceUpdatePaused = false →
      ratioOf t₁ spot₂ ≠ t₁.lastPrice →
      ∃ s₂, updatePrice s₁ i spot₂ now₂ = Except.ok s₂ ∧
        s₂.tokens[i]? =
          some ({ t₁ with lastPrice := ratioOf t₁ spot₂, lastUpdated := now₂ })) := by
  refine ⟨updatePrice_idem h₁ now₂, ?_⟩
  intro spot₂ h2 hp hr
  refine ⟨writePrice s₁ i t₁ (ratioOf t₁ spot₂) now₂, ?_, ?_⟩
  · unfold updatePrice
    rw [ht₁]
    simp [hp, h2, hr]
  · have hlt : i < s₁.tokens.length := (List.getElem?_eq_some_iff.mp ht₁).1
    simp only [writePrice]
    exact List.getElem?_set_self (by simpa using hlt)

/-- Witness for C6 at a concrete token: a first update at spot 2·10^6 writes
ratio 8e18, and the second behaves as the theorem states. -/
theorem c6_second_update_witness :
    updatePrice poolUnitUpdated 0 2000000 5 = Except.ok poolUnitUpdated ∧
    (∃ s₂, updatePrice poolUnitUpdated 0 3000000 9 = Except.ok s₂ ∧
      s₂.tokens[0]? =
        some ({ poolUnitTokenUpdated with
                  lastPrice := ratioOf poolUnitTokenUpdated 3000000,
                  lastUpdated := 9 })) := by
  have h := c6_second_update poolUnit poolUnitUpdated 0 2000000 5 9
    poolUnitTokenUpdated (by rfl) (by rfl)
  exact ⟨h.1, h.2 3000000 (by decide) (by rfl) (by decide)⟩

/-- Counterexample for C6 as stated: the token was created at oracle spot
10^19; moving the oracle from 10^19 to 10^19 + 1 is a genuine oracle change,
yet both update calls leave the state — including `lastUpdateTimestamp`,
which stays 0 — untouched, because the recomputed 1e18-scale ratio floors to
the stored value. -/
theorem c6_counterexample :
    updatePrice poolHugeSpot 0 (10 ^ 19) 5 = Except.ok poolHugeSpot ∧
    updatePrice poolHugeSpot 0 (10 ^ 19 + 1) 9 = Except.ok poolHugeSpot ∧
    (10 ^ 19 + 1 : Nat) ≠ 10 ^ 19 ∧
    poolHugeSpot.tokens.map Token.lastUpdated = [0] := by
  exact ⟨by rfl, by rfl, by decide, by rfl⟩

/-- C2 (amended): for every registered token whose stored price is current
with respect to the oracle (in particular, any unpaused token immediately
after its implicit update), the quoted normalized price is exactly 1e18 when
total equity is zero and otherwise equals
`rawPower(token) * poolBalance / initialReferencePrice / totalEquity` in
fixed-point units, with `rawPower` the oracle price cubed (LONG) or its
fixed-point inverse cube (SHORT).  (As stated the claim is false for a
price-update-paused token with a stale stored price — see the
counterexample.) -/
theorem c2_quote_matches_spec_formula (s : Pool) (i spot now : Nat) (t : Token)
    (ht : s.tokens[i]? = some t)
    (hcur : t.lastPrice = ratioOf t spot)
    (hp : t.priceUpdatePaused = false) (hs : spot ≠ 0) :
    quote s i spot now = Except.ok (specNormalizedPrice s i spot) := by
  unfold quote updatePrice
  rw [ht]
  simp only [hp, Bool.false_eq_true, if_false, hs, if_true, ← hcur, if_pos rfl,
    Except.map]
  unfold priceOn specNormalizedPrice
  rw [ht]
  dsimp only
  rw [hcur]
  unfold ratioOf
  rfl

/-- Witness for C2 at a concrete up-to-date token with nonzero equity. -/
theorem c2_quote_matches_spec_formula_witness :
    quote poolUnit 0 1000000 9 = Except.ok (specNormalizedPrice poolUnit 0 1000000) :=
  c2_quote_matches_spec_formula poolUnit 0 1000000 9
    ({ baseToken with totalSupply := 1 }) (by rfl) (by decide) (by rfl) (by decide)

/-- C4: the pure quote functions are projections of the deposit/withdraw
math: whenever the mutating operation succeeds from a state, the pure quote
evaluated on that same state returns a bit-identical result.  (The quote
functions are `Except Err Nat`-valued and take the pool by value, so they
cannot mutate it.) -/
theorem c4_quotes_bit_identical (s : Pool)
    (i amount quantityIn recipient spot now : Nat) :
    (∀ s' q, deposit s i amount recipient spot now = Except.ok (s', q) →
        quoteDeposit s i amount spot now = Except.ok q) ∧
    (∀ s' out, withdraw s i quantityIn recipient spot now = Except.ok (s', out) →
        quoteWithdraw s i quantityIn spot now = Except.ok out) :=
  ⟨fun _ _ h => deposit_ok_quote h, fun _ _ h => withdraw_ok_quote h⟩

/-- Witness for C4: a concrete deposit of 100 wei mints 50 (price 2e18), and
a concrete withdrawal of 1 token quantum from `poolBigAfterDep` pays 2 wei,
both matching their quotes. -/
theorem c4_quotes_bit_identical_witness :
    quoteDeposit poolUnit 0 100 1000000 5 = Except.ok 50 ∧
    quoteWithdraw poolBigAfterDep 0 1 1000000 5 = Except.ok 2 := by
  constructor
  · exact (c4_quotes_bit_identical poolUnit 0 100 1 2 1000000 5).1
      ({ poolUnit with heldCollateral := 102,
                       tokens := [{ baseToken with totalSupply := 51 }] })
      50 (by rfl)
  · exact (c4_quotes_bit_identical poolBigAfterDep 0 100 1 2 1000000 5).2
      ({ poolBigAfterDep with heldCollateral := 4098,
                              tokens := [{ baseToken with totalSupply := 2049 }] })
      2 (by rfl)

/-- C8: deposits and withdrawals reject an unregistered token with
`notAdded`, a paused token with `paused`, a null recipient with
`zeroAddress`, and a zero amount / zero quantity with `zeroAmount`.  In this
embedding a failed operation returns only the error — the caller's state is
never replaced, so every failure leaves the pool exactly as it was
(all-or-nothing). -/
theorem c8_validation_errors (s : Pool)
    (i amount quantityIn recipient spot now : Nat) :
    (s.tokens[i]? = none →
      deposit s i amount recipient spot now = Except.error Err.notAdded ∧
      withdraw s i quantityIn recipient spot now = Except.error Err.notAdded) ∧
    (∀ t, s.tokens[i]? = some t →
      (t.depositPaused = true →
        deposit s i amount recipient spot now = Except.error Err.paused) ∧
      (t.withdrawPaused = true →
        withdraw s i quantityIn recipient spot now = Except.error Err.paused) ∧
      (t.depositPaused = false → recipient = 0 →
        deposit s i amount recipient spot now = Except.error Err.zeroAddress) ∧
      (t.withdrawPaused = false → recipient = 0 →
        withdraw s i quantityIn recipient spot now = Except.error Err.zeroAddress) ∧
      (t.depositPaused = false → recipient ≠ 0 → amount = 0 →
        deposit s i amount recipient spot now = Except.error Err.zeroAmount) ∧
      (t.withdrawPaused = false → recipient ≠ 0 → quantityIn = 0 →
        withdraw s i quantityIn recipient spot now = Except.error Err.zeroAmount)) := by
  constructor
  · intro hnone
    refine ⟨?_, ?_⟩
    · unfold deposit
      rw [hnone]
    · unfold withdraw
      rw [hnone]
  · intro t ht
    refine ⟨?_, ?_, ?_, ?_, ?_, ?_⟩
    · intro hp
      unfold deposit
      rw [ht]
      simp [hp]
    · intro hp
      unfold withdraw
      rw [ht]
      simp [hp]
    · intro hp hr
      unfold deposit
      rw [ht]
      simp [hp, hr]
    · intro hp hr
      unfold withdraw
      rw [ht]
      simp [hp, hr]
    · intro hp hr ha
      unfold deposit
      rw [ht]
      simp [hp, hr, ha]
    · intro hp hr ha
      unfold withdraw
      rw [ht]
      simp [hp, hr, ha]

/-- Witness for C8: each rejection fires at a concrete state and input. -/
theorem c8_validation_errors_witness :
    deposit poolUnit 5 100 2 1000000 7 = Except.error Err.notAdded ∧
    withdraw poolUnit 5 1 2 1000000 7 = Except.error Err.notAdded ∧
    deposit poolAllPaused 0 100 2 1000000 7 = Except.error Err.paused ∧
    withdraw poolAllPaused 0 1 2 1000000 7 = Except.error Err.paused ∧
    deposit poolUnit 0 100 0 1000000 7 = Except.error Err.zeroAddress ∧
    withdraw poolUnit 0 1 0 1000000 7 = Except.error Err.zeroAddress ∧
    deposit poolUnit 0 0 2 1000000 7 = Except.error Err.zeroAmount ∧
    withdraw poolUnit 0 0 2 1000000 7 = Except.error Err.zeroAmount := by
  refine ⟨((c8_validation_errors poolUnit 5 100 1 2 1000000 7).1 (by rfl)).1,
          ((c8_validation_errors poolUnit 5 100 1 2 1000000 7).1 (by rfl)).2,
          ?_, ?_, ?_, ?_, ?_, ?_⟩
  · exact ((c8_validation_errors poolAllPaused 0 100 1 2 1000000 7).2 _ (by rfl)).1
      (by rfl)
  · exact (((c8_validation_errors poolAllPaused 0 100 1 2 1000000 7).2 _ (by rfl)).2).1
      (by rfl)
  · exact ((c8_validation_errors poolUnit 0 100 1 0 1000000 7).2 _
      (by rfl)).2.2.1 (by rfl) (by rfl)
  · exact ((c8_validation_errors poolUnit 0 100 1 0 1000000 7).2 _
      (by rfl)).2.2.2.1 (by rfl) (by rfl)
  · exact ((c8_validation_errors poolUnit 0 0 1 2 1000000 7).2 _
      (by rfl)).2.2.2.2.1 (by rfl) (by decide) (by rfl)
  · exact ((c8_validation_errors poolUnit 0 0 0 2 1000000 7).2 _
      (by rfl)).2.2.2.2.2 (by rfl) (by decide) (by rfl)

/-- C7: `addCubeToken` is governance-only, rejects an existing
`(symbol, side)` pair with `alreadyAdded` and a missing/zero oracle price
with `priceUnavailable`; on success it stores `lastNormalizedPrice = 1e18`,
the oracle-derived reference and spot prices, `lastUpdateTimestamp = now`,
the side-derived name and symbol, and appends the token at index equal to
its creation order. -/
theorem c7_add_token (s : Pool) (caller : Nat) (key : String) (sd : Side)
    (feeBps maxShare spot now : Nat) :
    (caller ≠ s.governance →
      addCubeToken s caller key sd feeBps maxShare spot now
        = Except.error Err.notGovernance) ∧
    (caller = s.governance →
      s.tokens.any (fun t => t.key = key ∧ t.side = sd) = true →
      addCubeToken s caller key sd feeBps maxShare spot now
        = Except.error Err.alreadyAdded) ∧
    (caller = s.governance →
      s.tokens.any (fun t => t.key = key ∧ t.side = sd) = false →
      spot = 0 →
      addCubeToken s caller key sd feeBps maxShare spot now
        = Except.error Err.priceUnavailable) ∧
    (∀ s' idx, addCubeToken s caller key sd feeBps maxShare spot now
        = Except.ok (s', idx) →
      idx = s.tokens.length ∧
      ∃ tok, s'.tokens = s.tokens ++ [tok] ∧
        tok.lastPrice = UNIT ∧
        tok.lastUpdated = now ∧
        tok.initialPrice = rawPower spot sd ∧
        tok.initialSpotPrice = spot ∧
        tok.key = key ∧ tok.side = sd ∧ tok.totalSupply = 0 ∧
        tok.feeBps = feeBps ∧ tok.maxPoolShareBps = maxShare ∧
        tok.name = (match sd with
                    | Side.long => "3X Long " ++ key
                    | Side.short => "3X Short " ++ key) ∧
        tok.symbol = (match sd with
                      | Side.long => "cube" ++ key
                      | Side.short => "inv" ++ key)) := by
  refine ⟨?_, ?_, ?_, ?_⟩
  · intro hg
    unfold addCubeToken
    rw [if_pos hg]
  · intro hg hdup
    unfold addCubeToken
    rw [if_neg (not_not_intro hg), if_pos hdup]
  · intro hg hdup hs0
    unfold addCubeToken
    rw [if_neg (not_not_intro hg),
      if_neg (show ¬_ = true by rw [hdup]; exact Bool.false_ne_true), if_pos hs0]
  · intro s' idx h
    unfold addCubeToken at h
    by_cases h1 : caller ≠ s.governance
    · simp [h1] at h
    · rw [if_neg h1] at h
      by_cases h2 : s.tokens.any (fun t => t.key = key ∧ t.side = sd)
      · rw [if_pos h2] at h
        exact absurd h (by simp)
      · rw [if_neg h2] at h
        by_cases h3 : spot = 0
        · simp [h3] at h
        · rw [if_neg h3] at h
          by_cases h4 : 10000 ≤ feeBps
          · simp [h4] at h
          · rw [if_neg h4] at h
            dsimp only at h
            by_cases h5 : rawPower spot sd = 0 ∨ PRICE_CEILING < rawPower spot sd
            · simp [h5] at h
            · rw [if_neg h5] at h
              injection h with h
              injection h with hst hidx
              subst hst
              subst hidx
              exact ⟨rfl, _, rfl, rfl, rfl, rfl, rfl, rfl, rfl, rfl, rfl, rfl,
                rfl, rfl⟩

/-- Witness for C7: each branch fires at a concrete input — a stranger is
rejected, a duplicate "BTC" LONG is rejected, a zero oracle price is
rejected, and a successful creation appends "3X Long BTC"/"cubeBTC" with
price 1e18 at index 1. -/
theorem c7_add_token_witness :
    addCubeToken poolUnit 9 "BTC" Side.long 100 0 1000000 5
      = Except.error Err.notGovernance ∧
    addCubeToken poolUnit 1 "BTC" Side.long 100 0 1000000 5
      = Except.error Err.alreadyAdded ∧
    addCubeToken poolUnit 1 "ETH" Side.long 100 0 0 5
      = Except.error Err.priceUnavailable ∧
    (∃ s' idx tok, addCubeToken poolUnit 1 "ETH" Side.short 100 0 1000000 5
        = Except.ok (s', idx) ∧ idx = 1 ∧
      s'.tokens = poolUnit.tokens ++ [tok] ∧ tok.lastPrice = UNIT ∧
      tok.lastUpdated = 5 ∧ tok.name = "3X Short ETH" ∧ tok.symbol = "invETH") := by
  refine ⟨(c7_add_token poolUnit 9 "BTC" Side.long 100 0 1000000 5).1 (by decide),
          (c7_add_token poolUnit 1 "BTC" Side.long 100 0 1000000 5).2.1 rfl (by rfl),
          (c7_add_token poolUnit 1 "ETH" Side.long 100 0 0 5).2.2.1 rfl (by rfl) rfl,
          ?_⟩
  obtain ⟨hidx, tok, htoks, hlp, hlu, _, _, _, _, _, _, _, hname, hsym⟩ :=
    (c7_add_token poolUnit 1 "ETH" Side.short 100 0 1000000 5).2.2.2
      poolUnitEth 1 (by rfl)
  exact ⟨poolUnitEth, 1, tok, by rfl, rfl, htoks, hlp, hlu,
    by rw [hname]; rfl, by rw [hsym]; rfl⟩

/-- C10: `poolBalance` is derived as held collateral minus accrued protocol
fees, so an unsolicited transfer of collateral straight to the pool raises
`poolBalance` by exactly the transferred amount, flowing into token-holder
equity, and the accounting equation
`heldCollateral = poolBalance + accruedProtocolFees` keeps holding by
construction. -/
theorem c10_donation_increases_pool_balance (s : Pool) (amount : Nat)
    (h : s.accruedProtocolFees ≤ s.heldCollateral) :
    poolBalance (donate s amount) = poolBalance s + amount ∧
    (donate s amount).heldCollateral
      = poolBalance (donate s amount) + (donate s amount).accruedProtocolFees ∧
    (donate s amount).accruedProtocolFees = s.accruedProtocolFees := by
  refine ⟨?_, ?_, rfl⟩ <;> simp only [donate, poolBalance] <;> omega

/-- Witness for C10: donating 1e18 to the pool that already holds 100 wei. -/
theorem c10_donation_increases_pool_balance_witness :
    poolBalance (donate poolDonated (10 ^ 18))
      = poolBalance poolDonated + 10 ^ 18 ∧
    (donate poolDonated (10 ^ 18)).heldCollateral
      = poolBalance (donate poolDonated (10 ^ 18))
        + (donate poolDonated (10 ^ 18)).accruedProtocolFees ∧
    (donate poolDonated (10 ^ 18)).accruedProtocolFees
      = poolDonated.accruedProtocolFees :=
  c10_donation_increases_pool_balance poolDonated (10 ^ 18) (by decide)

/-- Anatomy of a successful buy/sell-variant price update. -/
theorem lpoolUpdatePrice_ok_cases {s s₁ : LPool} {i spot now : Nat}
    (h : lpoolUpdatePrice s i spot now = Except.ok s₁) :
    ∃ t, s.tokens[i]? = some t ∧
      (s₁ = s ∨ s₁ = lpoolWritePrice s i t (ratioOf t spot) now) := by
  unfold lpoolUpdatePrice at h
  split at h
  · exact absurd h (by simp)
  · rename_i t ht
    refine ⟨t, ht, ?_⟩
    by_cases hp : t.priceUpdatePaused
    · simp only [hp, if_true] at h
      exact Or.inl (Except.ok.inj h).symm
    · simp only [hp, if_false] at h
      by_cases hs : spot = 0
      · simp [hs] at h
      · simp only [hs, if_false] at h
        by_cases hr : ratioOf t spot = t.lastPrice
        · simp only [hr, if_true] at h
          exact Or.inl (Except.ok.inj h).symm
        · simp only [hr, if_false] at h
          exact Or.inr (Except.ok.inj h).symm

/-- A successful buy/sell-variant price update keeps the balances, the fee
parameter and every token's supply; the token slot keeps everything except
possibly price and timestamp. -/
theorem lpoolUpdatePrice_ok_facts {s s₁ : LPool} {i spot now : Nat} {t : Token}
    (h : lpoolUpdatePrice s i spot now = Except.ok s₁)
    (ht : s.tokens[i]? = some t) :
    s₁.heldCollateral = s.heldCollateral ∧
    s₁.feesAccrued = s.feesAccrued ∧
    s₁.tradingFeeBps = s.tradingFeeBps ∧
    s₁.tokens.map Token.totalSupply = s.tokens.map Token.totalSupply ∧
    ∃ t₁, s₁.tokens[i]? = some t₁ ∧ t₁.totalSupply = t.totalSupply ∧
      t₁.depositPaused = t.depositPaused ∧ t₁.withdrawPaused = t.withdrawPaused := by
  obtain ⟨t', ht', hc | hc⟩ := lpoolUpdatePrice_ok_cases h
  · subst hc
    exact ⟨rfl, rfl, rfl, rfl, t, ht, rfl, rfl, rfl⟩
  · rw [ht] at ht'
    cases ht'
    subst hc
    have hlt : i < s.tokens.length := (List.getElem?_eq_some_iff.mp ht).1
    refine ⟨rfl, rfl, rfl, ?_, ?_⟩
    · simp only [lpoolWritePrice, List.map_set]
      exact list_set_same (by rw [List.getElem?_map, ht]; rfl)
    · refine ⟨{ t with lastPrice := ratioOf t spot, lastUpdated := now },
        ?_, rfl, rfl, rfl⟩
      simp only [lpoolWritePrice]
      exact List.getElem?_set_self (by simpa using hlt)

/-- C9 (amended): in the buy/sell variant a zero-quantity trade is accepted,
mints and burns nothing, and accrues no fee; `sell` returns 0 and leaves the
balances unchanged, while `buy` returns cost 1 — not 0 — because the cost
taken from the buyer always rounds up by one unit, and that single wei is
added to the pool's held collateral.  (The claim's "returns 0 cost" is false
for `buy` — see the counterexample.) -/
theorem c9_zero_quantity_trades (s : LPool)
    (i maxCost recipient spot now : Nat) (t : Token)
    (ht : s.tokens[i]? = some t)
    (hb : t.depositPaused = false) (hw : t.withdrawPaused = false)
    (hr : recipient ≠ 0) (hs : spot ≠ 0)
    (hf : s.tradingFeeBps < 10000) (hmc : 1 ≤ maxCost) :
    (∃ s', buy s i 0 maxCost recipient spot now = Except.ok (s', 1) ∧
      s'.tokens.map Token.totalSupply = s.tokens.map Token.totalSupply ∧
      s'.heldCollateral = s.heldCollateral + 1 ∧
      s'.feesAccrued = s.feesAccrued) ∧
    (∃ s', sell s i 0 0 recipient spot now = Except.ok (s', 0) ∧
      s'.tokens.map Token.totalSupply = s.tokens.map Token.totalSupply ∧
      s'.heldCollateral = s.heldCollateral ∧
      s'.feesAccrued = s.feesAccrued) := by
  have hupd : ∃ s₁, lpoolUpdatePrice s i spot now = Except.ok s₁ := by
    unfold lpoolUpdatePrice
    rw [ht]
    dsimp only
    by_cases hp : t.priceUpdatePaused
    · exact ⟨s, by rw [if_pos hp]⟩
    · rw [if_neg hp, if_neg hs]
      by_cases hq : ratioOf t spot = t.lastPrice
      · exact ⟨s, by rw [if_pos hq]⟩
      · exact ⟨_, by rw [if_neg hq]⟩
  obtain ⟨s₁, hupd⟩ := hupd
  obtain ⟨hheld, hfees, htf, hsup, t₁, ht₁, hts, hdp, hwp⟩ :=
    lpoolUpdatePrice_ok_facts hupd ht
  have hfee0 : 1 * s₁.tradingFeeBps / 10000 = 0 :=
    Nat.div_eq_of_lt (by rw [Nat.one_mul, htf]; exact hf)
  constructor
  · have hbuy : buy s i 0 maxCost recipient spot now =
        Except.ok ({ s₁ with heldCollateral := s₁.heldCollateral + 1,
                             feesAccrued := s₁.feesAccrued,
                             tokens := s₁.tokens.set i t₁ }, 1) := by
      unfold buy
      rw [ht]
      dsimp only
      simp only [hb, Bool.false_eq_true, if_false, if_neg hr, hupd]
      rw [ht₁]
      dsimp only
      simp only [Nat.zero_mul, Nat.zero_div, Nat.zero_add, hfee0, Nat.add_zero]
      rw [if_neg (by omega)]
    refine ⟨_, hbuy, ?_, ?_, ?_⟩
    · show (s₁.tokens.set i t₁).map Token.totalSupply
        = s.tokens.map Token.totalSupply
      rw [list_set_same ht₁, hsup]
    · show s₁.heldCollateral + 1 = s.heldCollateral + 1
      rw [hheld]
    · exact hfees
  · have hsell : sell s i 0 0 recipient spot now =
        Except.ok ({ s₁ with heldCollateral := s₁.heldCollateral,
                             feesAccrued := s₁.feesAccrued,
                             tokens := s₁.tokens.set i t₁ }, 0) := by
      unfold sell
      rw [ht]
      dsimp only
      simp only [hw, Bool.false_eq_true, if_false, if_neg hr, hupd]
      rw [ht₁]
      dsimp only
      simp only [Nat.zero_mul, Nat.zero_div, Nat.zero_sub, Nat.sub_zero,
        Nat.add_zero]
      rw [if_neg (by omega), if_neg (by omega), if_neg (by omega)]
    refine ⟨_, hsell, ?_, ?_, ?_⟩
    · show (s₁.tokens.set i t₁).map Token.totalSupply
        = s.tokens.map Token.totalSupply
      rw [list_set_same ht₁, hsup]
    · exact hheld
    · exact hfees

/-- Witness for C9 at a concrete one-token buy/sell pool with a 1% fee. -/
theorem c9_zero_quantity_trades_witness :
    (∃ s', buy lpoolOne 0 0 1 7 1000000 5 = Except.ok (s', 1) ∧
      s'.tokens.map Token.totalSupply = lpoolOne.tokens.map Token.totalSupply ∧
      s'.heldCollateral = lpoolOne.heldCollateral + 1 ∧
      s'.feesAccrued = lpoolOne.feesAccrued) ∧
    (∃ s', sell lpoolOne 0 0 0 7 1000000 5 = Except.ok (s', 0) ∧
      s'.tokens.map Token.totalSupply = lpoolOne.tokens.map Token.totalSupply ∧
      s'.heldCollateral = lpoolOne.heldCollateral ∧
      s'.feesAccrued = lpoolOne.feesAccrued) :=
  c9_zero_quantity_trades lpoolOne 0 1 7 1000000 5
    ({ baseToken with totalSupply := UNIT, name := "BTC Cube Token" })
    (by rfl) (by rfl) (by rfl) (by decide) (by decide) (by decide) (by decide)

/-- Counterexample for C9 as stated: buying quantity 0 at a concrete pool
succeeds but returns cost 1, not 0 (the round-up unit), so "buy ... returns
0 cost" is false. -/
theorem c9_counterexample :
    (buy lpoolOne 0 0 1 7 1000000 5).map Prod.snd = Except.ok 1 ∧
    (Except.ok 1 : Except Err Nat) ≠ Except.ok 0 := by
  refine ⟨by rfl, ?_⟩
  intro hc
  exact absurd (Except.ok.inj hc) (by decide)

/-- Counterexample for C2 as stated: for the paused token of
`poolPausedStale` (stored price 1e18, supply 1, pool balance 2), with the
oracle now at spot 2·10^6 (rawPower 8e18), the quoted price is 2e18 — it
uses the stored price — while the claim's formula at the current oracle
price gives 16e18. -/
theorem c2_counterexample :
    quote poolPausedStale 0 2000000 9 = Except.ok (2 * UNIT) ∧
    specNormalizedPrice poolPausedStale 0 2000000 = 16 * UNIT ∧
    (2 * UNIT : Nat) ≠ 16 * UNIT := by
  exact ⟨by rfl, by rfl, by decide⟩

end Cube
